import Mathlib

/-!
Verification of the clustering / labeling / semantic-grouping pipeline of the
`dora` repository against its natural-language specification.

The Lean definitions below are a shallow embedding of the Python source:

* `src/cluster_insights.py`   — `clear_existing_clusters`, `save_clusters_to_db`,
  and the `cluster_items` driver (the "Cluster Engine");
* `src/label_clusters.py`     — `find_centroid_insights` and the `label_clusters`
  selection / per-cluster processing loop (the "Cluster Labeler");
* `src/semantic_grouping.py`  — the post-LLM validation / repair step of
  `semantic_clustering_analysis` (the "Semantic Grouper");
* `src/generate_reduced_embeddings.py` — the UMAP parameter construction and the
  save loop of `generate_reduced_embeddings` (the "Dimensionality Reducer").

Machine floats of the source are modelled as rationals (`ℚ`); the Euclidean
norm of `numpy.linalg.norm` appears in theorem statements through `Real.sqrt`
of the rational squared distance.  Database tables are modelled as lists of
row structures; a SQLAlchemy `session.add`/`delete`/`update` becomes a pure
list operation on an explicit state.
-/

namespace Dora

/-- A row of the `clusters` table.  Fields are the column set used by
`cluster_insights.py` (the `Cluster(...)` constructor call in
`save_clusters_to_db`), `label_clusters.py` and `semantic_grouping.py`:
`id`, `company_name`, `insight_type` (nullable), `embedding_type`,
`n_components`, `cluster_type`, `cluster_label` / `cluster_summary`
(nullable until labeled), `size`. -/
structure ClusterRow where
  id : Int
  company_name : String
  insight_type : Option String
  embedding_type : String
  n_components : Int
  cluster_type : String
  cluster_label : Option String
  cluster_summary : Option String
  size : Nat
deriving DecidableEq, Repr

/-- A row of the `cluster_group_assignments` table (`ClusterGroupAssignment`
model): a (group id, cluster id) pair. -/
structure GroupAssignRow where
  group_id : Int
  cluster_id : Int
deriving DecidableEq, Repr

/-- The slice of database state touched (or pointedly *not* touched) by the
Cluster Engine.  `itemClusterRef` models the nullable per-item cluster
reference (the `insights.cluster_id` column added by `add_clusters_table.py`:
`ADD COLUMN cluster_id INTEGER`, nullable): each entry is an item id paired
with its stored cluster reference, `none` meaning NULL. -/
structure DbState where
  clusters : List ClusterRow
  groupAssignments : List GroupAssignRow
  itemClusterRef : List (Nat × Option Int)
deriving DecidableEq, Repr

/-- The stored cluster reference of an item (`none` = NULL, also when the
item has no row at all). -/
def refLookup (db : DbState) (item : Nat) : Option Int :=
  match db.itemClusterRef.find? (fun p => p.1 == item) with
  | some p => p.2
  | none => none

/-- `clear_existing_clusters` scope condition: in
`src/cluster_insights.py` the WHERE clause matches `company_name`,
`embedding_type`, `cluster_type`, and `n_components == n_components` for
reduced embeddings or `n_components == 1536` for original ones. -/
def effectiveComponents (embeddingType : String) (nComponents : Int) : Int :=
  if embeddingType = "reduced" then nComponents else 1536

/-- The WHERE predicate of `clear_existing_clusters`. -/
def clusterScopePred (company embeddingType clusterType : String) (nComponents : Int)
    (r : ClusterRow) : Bool :=
  (r.company_name == company) && (r.embedding_type == embeddingType)
    && (r.cluster_type == clusterType)
    && (r.n_components == effectiveComponents embeddingType nComponents)

/-- The `clusters_to_delete` id list of `clear_existing_clusters`: ids of the
clusters matching the scope. -/
def doomedClusterIds (company embeddingType : String) (nComponents : Int)
    (clusterType : String) (db : DbState) : List Int :=
  (db.clusters.filter
    (clusterScopePred company embeddingType clusterType nComponents)).map ClusterRow.id

/-- `clear_existing_clusters` (src/cluster_insights.py lines 21-72): select the
ids of clusters matching the scope, and if any exist, first delete the
`ClusterGroupAssignment` rows referencing them, then the cluster rows
themselves.  Nothing else in the function touches any other table. -/
def clearExistingClusters (company embeddingType : String) (nComponents : Int)
    (clusterType : String) (db : DbState) : DbState :=
  if (doomedClusterIds company embeddingType nComponents clusterType db).isEmpty then db
  else
    { db with
      groupAssignments := db.groupAssignments.filter
        (fun ga => !((doomedClusterIds company embeddingType nComponents clusterType
            db).contains ga.cluster_id)),
      clusters := db.clusters.filter
        (fun c => !((doomedClusterIds company embeddingType nComponents clusterType
            db).contains c.id)) }

/-- The items of `embeddings_list` carrying HDBSCAN label `l`: the zip of
`save_clusters_to_db` (`for emb, label in zip(embeddings_list, cluster_labels)`)
restricted to label `l`.  Items are identified by their ids. -/
def labelMembers (items : List Nat) (labels : List Int) (l : Int) : List Nat :=
  ((items.zip labels).filter (fun p => p.2 == l)).map Prod.fst

/-- `sorted(clusters_map.keys())` of `save_clusters_to_db`: the distinct
HDBSCAN labels in ascending order. -/
def sortedClusterKeys (labels : List Int) : List Int :=
  List.insertionSort (· ≤ ·) labels.dedup

/-- Consecutive autoincrement primary keys for the new cluster rows: the
`label_to_db_id` association built by `save_clusters_to_db` assigns the keys
`nextId`, `nextId+1`, … to the non-noise labels in insertion (= ascending
label) order, one `session.flush()` per row. -/
def assignIds (nextId : Int) : List Int → List (Int × Int)
  | [] => []
  | l :: ls => (l, nextId) :: assignIds (nextId + 1) ls

/-- `save_clusters_to_db` (src/cluster_insights.py lines 75-136): for every
distinct label except the noise sentinel `-1` (in ascending label order) a
fresh `Cluster` row is inserted with `insight_type=None`, the scope columns,
and `size = len(cluster_items)`; the function returns the created rows
together with the in-memory `label_to_db_id` mapping.  Fresh primary keys are
modelled as `nextId`, `nextId+1`, … (SQLite autoincrement via
`session.flush()`).  The function writes no other table: in particular no
item→cluster assignment is persisted. -/
def saveClustersToDb (company : String) (items : List Nat) (labels : List Int)
    (embeddingType : String) (nComponents : Int) (clusterType : String)
    (nextId : Int) : List ClusterRow × List (Int × Int) :=
  let keys := (sortedClusterKeys labels).filter (fun l => l != -1)
  let pairs := assignIds nextId keys
  (pairs.map (fun p =>
      { id := p.2
        company_name := company
        insight_type := none
        embedding_type := embeddingType
        n_components := nComponents
        cluster_type := clusterType
        cluster_label := none
        cluster_summary := none
        size := (labelMembers items labels p.1).length }),
   pairs)

/-- The embedding type derived by `cluster_items` from the dimension count:
`"original" if dimensions == 1536 else "reduced"`. -/
def engineEmbeddingType (dims : Int) : String :=
  if dims == 1536 then "original" else "reduced"

/-- The persistent effect of one `cluster_items` run
(src/cluster_insights.py lines 290-455): derive the embedding type from the
dimension count, clear the existing clusters for the scope, run HDBSCAN
(whose output is the given `labels`), and save the new cluster rows.  All
remaining statements of `cluster_items` are console printing;
`itemClusterRef` is never read or written by the function. -/
def runClusterEngine (company clusterType : String) (dims : Int)
    (items : List Nat) (labels : List Int) (nextId : Int) (db : DbState) : DbState :=
  { clearExistingClusters company (engineEmbeddingType dims) dims clusterType db with
    clusters :=
      (clearExistingClusters company (engineEmbeddingType dims) dims clusterType
          db).clusters
        ++ (saveClustersToDb company items labels (engineEmbeddingType dims) dims
            clusterType nextId).1 }

/-- The WHERE predicate of the cluster query in `label_clusters`
(src/label_clusters.py lines 191-206): `company_name`, `insight_type ==
insight_type` (a string argument), `embedding_type`; a `cluster_label IS NULL`
clause is added only when `force` is off, and an `n_components` clause only
when the embedding type argument is `"reduced"`.  SQL `insight_type = :t`
never matches a NULL column, so the comparison is `== some t`. -/
def labelSelectPred (company insightType embeddingType : String) (nComponents : Int)
    (force : Bool) (r : ClusterRow) : Bool :=
  (r.company_name == company) && (r.insight_type == some insightType)
    && (r.embedding_type == embeddingType)
    && (force || (r.cluster_label == none))
    && (if embeddingType == "reduced" then r.n_components == nComponents else true)

/-- The clusters selected for labeling by `label_clusters`. -/
def labelClustersSelection (company insightType embeddingType : String)
    (nComponents : Int) (force : Bool) (table : List ClusterRow) : List ClusterRow :=
  table.filter (labelSelectPred company insightType embeddingType nComponents force)

/-- The WHERE predicate of the cluster query in `semantic_clustering_analysis`
(src/semantic_grouping.py lines 249-260): same scope columns as the labeling
query, with no label clause and no force flag. -/
def semanticSelectPred (company insightType embeddingType : String) (nComponents : Int)
    (r : ClusterRow) : Bool :=
  (r.company_name == company) && (r.insight_type == some insightType)
    && (r.embedding_type == embeddingType)
    && (if embeddingType == "reduced" then r.n_components == nComponents else true)

/-- The clusters loaded by `semantic_clustering_analysis`. -/
def semanticClustersSelection (company insightType embeddingType : String)
    (nComponents : Int) (table : List ClusterRow) : List ClusterRow :=
  table.filter (semanticSelectPred company insightType embeddingType nComponents)

/-- A row of the `insights` table as read by `find_centroid_insights`.
The embedding columns (`embedding`, `reduced_embedding_5`, …) are modelled as
an association list from column name to vector; a missing entry is a NULL
column.  Vector components are rationals standing for the source's floats. -/
structure InsightRow where
  id : Int
  cluster_id : Option Int
  company_name : String
  embCols : List (String × List ℚ)
deriving DecidableEq, Repr

/-- Value of embedding column `col` of an insight row (`none` = SQL NULL). -/
def InsightRow.embAt (r : InsightRow) (col : String) : Option (List ℚ) :=
  (r.embCols.find? (fun p => p.1 == col)).map Prod.snd

/-- Column selection of `find_centroid_insights`: `"embedding"` for original
embeddings, `"reduced_embedding_{n_components}"` for reduced ones. -/
def embeddingColumn (embeddingType : String) (nComponents : Int) : String :=
  if embeddingType = "original" then "embedding"
  else "reduced_embedding_" ++ toString nComponents

/-- Componentwise sum of two vectors (`numpy` addition; inputs of one
`find_centroid_insights` call share one dimensionality). -/
def vecAdd (a b : List ℚ) : List ℚ := a.zipWith (· + ·) b

/-- `np.mean(embeddings_matrix, axis=0)`: componentwise mean. -/
def vecMean (embs : List (List ℚ)) : List ℚ :=
  match embs with
  | [] => []
  | e :: es => (es.foldl vecAdd e).map (fun x => x / (embs.length : ℚ))

/-- Squared Euclidean distance between two vectors: the square of
`np.linalg.norm(a - b)`. -/
def distSq (a b : List ℚ) : ℚ :=
  ((a.zip b).map (fun p => (p.1 - p.2) * (p.1 - p.2))).sum

/-- The (real) Euclidean distance between two rational vectors. -/
noncomputable def euclidDist (a b : List ℚ) : ℝ :=
  Real.sqrt ((distSq a b : ℚ) : ℝ)

/-- The member rows of `find_centroid_insights`
(src/label_clusters.py lines 57-64): insights `WHERE cluster_id = :cluster_id
AND company_name = :company AND {embedding_column} IS NOT NULL`. -/
def centroidMemberRows (table : List InsightRow) (clusterId : Int) (company : String)
    (col : String) : List InsightRow :=
  table.filter (fun r =>
    (r.cluster_id == some clusterId) && (r.company_name == company)
      && (r.embAt col).isSome)

/-- `find_centroid_insights` (src/label_clusters.py lines 26-104): load the
member rows, return `[]` when there are none, otherwise compute the centroid
as the mean of the member vectors, sort the members by distance to the
centroid (`np.argsort` of the per-row norms; sorting by squared distance
orders identically to sorting by the norm itself), and keep the first
`n_insights` of them. -/
def findCentroidInsights (table : List InsightRow) (clusterId : Int) (company : String)
    (embeddingType : String) (nComponents : Int) (nInsights : Nat) : List InsightRow :=
  let col := embeddingColumn embeddingType nComponents
  let rows := centroidMemberRows table clusterId company col
  if rows.isEmpty then []
  else
    let centroid := vecMean (rows.map (fun r => (r.embAt col).getD []))
    let d := fun r => distSq ((r.embAt col).getD []) centroid
    (List.insertionSort (fun a b => d a ≤ d b) rows).take nInsights

/-- The centroid computed by `find_centroid_insights` for a cluster: the mean
of the member embedding vectors at the cluster's own column. -/
def centroidOf (table : List InsightRow) (clusterId : Int) (company et : String)
    (nc : Int) : List ℚ :=
  vecMean ((centroidMemberRows table clusterId company (embeddingColumn et nc)).map
    (fun r => (r.embAt (embeddingColumn et nc)).getD []))

/-- The structured LLM output of `generate_cluster_labeling`: a label and a
one-sentence summary (the `ClusterLabeling` pydantic model). -/
structure ClusterLabeling where
  label : String
  summary : String
deriving DecidableEq, Repr

/-- The `UPDATE clusters SET cluster_label = …, cluster_summary = … WHERE id =
cluster.id` statement of the labeling loop. -/
def applyLabeling (clusterId : Int) (lab : ClusterLabeling)
    (table : List ClusterRow) : List ClusterRow :=
  table.map (fun r =>
    if r.id == clusterId then
      { r with cluster_label := some lab.label, cluster_summary := some lab.summary }
    else r)

/-- One iteration of the per-cluster loop of `label_clusters`
(src/label_clusters.py lines 231-276), wrapped in `try/except`: when
`find_centroid_insights` returns no rows the cluster is skipped (`continue`)
and the table is unchanged; when the LLM call — modelled as the fallible
oracle `llm` — raises, the exception is caught, the session rolled back (so
the table is unchanged) and the loop continues; otherwise the label and
summary are written and committed. -/
def labelClusterStep (insights : List InsightRow)
    (llm : Int → Except String ClusterLabeling)
    (company embeddingType : String) (nComponents : Int) (nCentroid : Nat)
    (table : List ClusterRow) (c : ClusterRow) : List ClusterRow :=
  if (findCentroidInsights insights c.id company embeddingType nComponents nCentroid).isEmpty
  then table
  else
    match llm c.id with
    | .error _ => table
    | .ok lab => applyLabeling c.id lab table

/-- The whole per-cluster loop of `label_clusters`: every selected cluster is
visited in order, each with `labelClusterStep` semantics. -/
def runLabelLoop (insights : List InsightRow)
    (llm : Int → Except String ClusterLabeling)
    (company embeddingType : String) (nComponents : Int) (nCentroid : Nat)
    (clusters : List ClusterRow) (table : List ClusterRow) : List ClusterRow :=
  clusters.foldl
    (labelClusterStep insights llm company embeddingType nComponents nCentroid) table

/-- The full `label_clusters` run (selection then loop) over a cluster table. -/
def labelClustersRun (insights : List InsightRow)
    (llm : Int → Except String ClusterLabeling)
    (company insightType embeddingType : String) (nComponents : Int)
    (nCentroid : Nat) (force : Bool) (table : List ClusterRow) : List ClusterRow :=
  runLabelLoop insights llm company embeddingType nComponents nCentroid
    (labelClustersSelection company insightType embeddingType nComponents force table)
    table

/-- First row of a cluster table with the given id (SQL row lookup). -/
def lookupCluster (table : List ClusterRow) (i : Int) : Option ClusterRow :=
  table.find? (fun r => r.id == i)

/-- One group of the LLM's structured grouping output (the `ClusterGroup`
pydantic model of src/semantic_grouping.py): a name, a description and the
list of member cluster ids, in LLM output order. -/
structure LlmGroup where
  group_name : String
  group_description : String
  cluster_ids : List Int
deriving DecidableEq, Repr

/-- Python `x or y` on a nullable string: `None` and the empty string are
falsy (`cluster.cluster_label or f"Cluster {cluster_id}"`). -/
def pyStrOr (x : Option String) (dflt : String) : String :=
  match x with
  | none => dflt
  | some s => if s = "" then dflt else s

/-- The duplicate-removal pass of `semantic_clustering_analysis`
(src/semantic_grouping.py lines 305-314): walk the groups in LLM output
order keeping, in each group, only the ids not seen in *earlier* groups
(`seen_clusters` is extended only after a group's list is rebuilt, exactly as
in the source). -/
def dedupPass (seen : List Int) : List LlmGroup → List LlmGroup
  | [] => []
  | g :: gs =>
    { g with cluster_ids := g.cluster_ids.filter (fun c => !(seen.contains c)) }
      :: dedupPass (seen ++ g.cluster_ids.filter (fun c => !(seen.contains c))) gs

/-- The concatenation of all member lists of the proposed groups;
`duplicate_ids` of the source's validation scan is non-empty exactly when
this list has a repeated id. -/
def llmFlatIds (groups : List LlmGroup) : List Int :=
  (groups.map LlmGroup.cluster_ids).flatten

/-- The groups after the conditional duplicate-removal step: the dedup pass
runs only when the duplicate scan found at least one duplicated id. -/
def dedupedGroups (groups : List LlmGroup) : List LlmGroup :=
  if (llmFlatIds groups).Nodup then groups else dedupPass [] groups

/-- `missing_ids`: the in-scope cluster ids assigned to no group after
deduplication.  (`missing_ids` is a Python set, so its iteration order is not
significant; the scope ids are walked in table order here.) -/
def missingScopeIds (clusters : List ClusterRow) (groups : List LlmGroup) : List Int :=
  (clusters.map ClusterRow.id).filter
    (fun i => !((llmFlatIds (dedupedGroups groups)).contains i))

/-- The singleton group synthesized for an unassigned cluster id: group name
and description are the cluster's own label and summary, with the source's
Python-`or` fallback values (`clusters_dict[cluster_id]` lookup; the `none`
branch is unreachable since the id comes from the scope). -/
def singletonGroupFor (clusters : List ClusterRow) (i : Int) : LlmGroup :=
  match clusters.find? (fun c => c.id == i) with
  | some c =>
    { group_name := pyStrOr c.cluster_label ("Cluster " ++ toString i)
      group_description := pyStrOr c.cluster_summary "No summary available"
      cluster_ids := [i] }
  | none =>
    { group_name := "Cluster " ++ toString i
      group_description := "No summary available"
      cluster_ids := [i] }

/-- The post-LLM validation / repair step of `semantic_clustering_analysis`
(src/semantic_grouping.py lines 290-341): run the dedup pass when the
duplicate scan found duplicates, then append one synthesized singleton group
per in-scope cluster id that is assigned to no group. -/
def repairGrouping (clusters : List ClusterRow) (groups : List LlmGroup) : List LlmGroup :=
  dedupedGroups groups
    ++ (missingScopeIds clusters groups).map (singletonGroupFor clusters)

/-- A row of the `complaint_embeddings` table reduced to the columns the C6
claim is about: the item id and the `dimensions` column.  The table has an
autoincrement primary key and, per `create_complaint_embeddings_table.py`,
the unique index `idx_complaint_embeddings_unique` on
`(complaint_id, dimensions)`. -/
structure EmbRow where
  item_id : Nat
  dims : Int
deriving DecidableEq, Repr

/-- The `session.add` loop of `generate_reduced_embeddings`
(src/generate_reduced_embeddings.py lines 245-290): for each item of the
batch, when `force` is off the session is queried for an existing row with
the item id and the target dimensionality and the item is skipped if one
exists (pending inserts of the same run are visible to the query through
autoflush, hence the check runs against the accumulated table); when `force`
is on the check is skipped entirely and a fresh row is added
unconditionally.  The function contains no delete statement.  The result is
the row set the final `session.commit()` tries to make persistent. -/
def saveReducedLoop (force : Bool) (targetDims : Int) (batch : List Nat)
    (table : List EmbRow) : List EmbRow :=
  batch.foldl (fun acc item =>
    if !force && (acc.any (fun r => (r.item_id == item) && (r.dims == targetDims)))
    then acc
    else acc ++ [{ item_id := item, dims := targetDims }]) table

/-- The save loop followed by `session.commit()` against the unique index
`idx_complaint_embeddings_unique`: the INSERTs are accepted only when every
`(complaint_id, dimensions)` pair is still unique; a staged duplicate makes
the commit raise `IntegrityError` — the function has no try/except, so the
run aborts, the transaction is rolled back, and the table keeps the rows it
had before the run.  (For a batch of up to 100 items the loop issues exactly
this one final commit.) -/
def saveReducedEmbeddings (force : Bool) (targetDims : Int) (batch : List Nat)
    (table : List EmbRow) : Except String (List EmbRow) :=
  if ((saveReducedLoop force targetDims batch table).map
      (fun r => (r.item_id, r.dims))).Nodup
  then Except.ok (saveReducedLoop force targetDims batch table)
  else Except.error "IntegrityError"

/-- The constructor arguments of the `UMAP(...)` call in
`generate_reduced_embeddings` (src/generate_reduced_embeddings.py lines
230-236). -/
structure UmapParams where
  n_components : Int
  metric : String
  n_neighbors : Int
  min_dist : ℚ
  random_state : Int
deriving DecidableEq, Repr

/-- The UMAP model construction: `n_neighbors=min(15, len(embeddings_list) -
1)` (the small-dataset clamp), fixed `random_state=42`, cosine metric. -/
def buildUmap (targetDims : Int) (numItems : Nat) : UmapParams :=
  { n_components := targetDims
    metric := "cosine"
    n_neighbors := min 15 ((numItems : Int) - 1)
    min_dist := 1/10
    random_state := 42 }

/-! ### Concrete fixtures used by witnesses and counterexamples -/

/-- The one cluster row saved by the engine for company `"acme"`, a single
item `7` labeled `0`, reduced 50-dimensional embeddings, first fresh id 1. -/
def exampleEngineRow : ClusterRow :=
  { id := 1
    company_name := "acme"
    insight_type := none
    embedding_type := "reduced"
    n_components := 50
    cluster_type := "complaints"
    cluster_label := none
    cluster_summary := none
    size := 1 }

/-- A labeling-scope cluster row with no label yet (id 1). -/
def exampleClusterA : ClusterRow :=
  { id := 1
    company_name := "acme"
    insight_type := some "pain_point"
    embedding_type := "reduced"
    n_components := 5
    cluster_type := "complaints"
    cluster_label := none
    cluster_summary := none
    size := 4 }

/-- A labeling-scope cluster row that is already labeled (id 2). -/
def exampleClusterB : ClusterRow :=
  { id := 2
    company_name := "acme"
    insight_type := some "pain_point"
    embedding_type := "reduced"
    n_components := 5
    cluster_type := "complaints"
    cluster_label := some "Old Label"
    cluster_summary := some "Old summary"
    size := 6 }

/-- A second unlabeled labeling-scope cluster row (id 3). -/
def exampleClusterC : ClusterRow :=
  { id := 3
    company_name := "acme"
    insight_type := some "pain_point"
    embedding_type := "reduced"
    n_components := 5
    cluster_type := "complaints"
    cluster_label := none
    cluster_summary := none
    size := 5 }

/-- A three-cluster table: two unlabeled clusters and one labeled one. -/
def exampleClusterTable : List ClusterRow :=
  [exampleClusterA, exampleClusterB, exampleClusterC]

/-- An insights table with retrievable 5-dimensional reduced embeddings for
clusters 2 and 3 and none for cluster 1. -/
def exampleInsightTable : List InsightRow :=
  [{ id := 21
     cluster_id := some 2
     company_name := "acme"
     embCols := [("reduced_embedding_5", [1, 2])] },
   { id := 31
     cluster_id := some 3
     company_name := "acme"
     embCols := [("reduced_embedding_5", [3, 4])] }]

/-- An LLM oracle that fails on cluster 2 and succeeds elsewhere. -/
def exampleLlmFailOn2 : Int → Except String ClusterLabeling :=
  fun i => if i == 2 then Except.error "network failure"
    else Except.ok { label := "New Label", summary := "New summary" }

/-- An LLM oracle that always succeeds. -/
def exampleLlmOk : Int → Except String ClusterLabeling :=
  fun _ => Except.ok { label := "New Label", summary := "New summary" }

/-- A cluster row inside the (acme, complaints, reduced, 50) scope. -/
def exampleScopeCluster : ClusterRow :=
  { id := 1
    company_name := "acme"
    insight_type := none
    embedding_type := "reduced"
    n_components := 50
    cluster_type := "complaints"
    cluster_label := none
    cluster_summary := none
    size := 5 }

/-- A database holding one in-scope cluster, a `ClusterGroupAssignment`
referencing it, and an item whose stored cluster reference points at it. -/
def exampleScopedDb : DbState :=
  { clusters := [exampleScopeCluster]
    groupAssignments := [{ group_id := 9, cluster_id := 1 }]
    itemClusterRef := [(0, some 1)] }

/-- A database of five items, all with NULL cluster references and no
clusters, as left by the extraction stages. -/
def exampleItemsDb : DbState :=
  { clusters := []
    groupAssignments := []
    itemClusterRef := [(10, none), (11, none), (12, none), (13, none), (14, none)] }

/-- A labeled in-scope cluster with id 7. -/
def exampleLabeledCluster7 : ClusterRow :=
  { id := 7
    company_name := "acme"
    insight_type := some "pain_point"
    embedding_type := "reduced"
    n_components := 5
    cluster_type := "complaints"
    cluster_label := some "Label Seven"
    cluster_summary := some "Summary seven"
    size := 5 }

/-- A labeled in-scope cluster with id 8. -/
def exampleLabeledCluster8 : ClusterRow :=
  { id := 8
    company_name := "acme"
    insight_type := some "pain_point"
    embedding_type := "reduced"
    n_components := 5
    cluster_type := "complaints"
    cluster_label := some "Label Eight"
    cluster_summary := some "Summary eight"
    size := 6 }

/-- A labeled in-scope cluster with id 9 that the LLM grouping omits. -/
def exampleLabeledCluster9 : ClusterRow :=
  { id := 9
    company_name := "acme"
    insight_type := some "pain_point"
    embedding_type := "reduced"
    n_components := 5
    cluster_type := "complaints"
    cluster_label := some "Label Nine"
    cluster_summary := some "Summary nine"
    size := 7 }

/-- The three labeled in-scope clusters of the grouping scenario. -/
def exampleC4Clusters : List ClusterRow :=
  [exampleLabeledCluster7, exampleLabeledCluster8, exampleLabeledCluster9]

/-- An LLM grouping that assigns cluster id 7 to both groups and omits id 9. -/
def exampleC4Groups : List LlmGroup :=
  [{ group_name := "Group A", group_description := "first", cluster_ids := [7, 8] },
   { group_name := "Group B", group_description := "second", cluster_ids := [7] }]

/-- An insights table for the centroid computation: three members of cluster
3 with 2-dimensional embeddings (centroid `[2, 0]`) and one row of another
cluster. -/
def exampleCentroidTable : List InsightRow :=
  [{ id := 1
     cluster_id := some 3
     company_name := "acme"
     embCols := [("reduced_embedding_2", [0, 0])] },
   { id := 2
     cluster_id := some 3
     company_name := "acme"
     embCols := [("reduced_embedding_2", [4, 0])] },
   { id := 3
     cluster_id := some 3
     company_name := "acme"
     embCols := [("reduced_embedding_2", [2, 0])] },
   { id := 4
     cluster_id := some 4
     company_name := "acme"
     embCols := [("reduced_embedding_2", [9, 9])] }]

/-! ### Helper lemmas -/

theorem assignIds_map_fst (nextId : Int) (ls : List Int) :
    (assignIds nextId ls).map Prod.fst = ls := by
  induction ls generalizing nextId with
  | nil => rfl
  | cons l ls ih => simp [assignIds, ih]

theorem fst_mem_of_mem_assignIds {nextId : Int} {ls : List Int} {p : Int × Int}
    (hp : p ∈ assignIds nextId ls) : p.1 ∈ ls := by
  induction ls generalizing nextId with
  | nil => simp [assignIds] at hp
  | cons l ls ih =>
    simp only [assignIds, List.mem_cons] at hp
    rcases hp with rfl | hp
    · simp
    · exact List.mem_cons_of_mem _ (ih hp)

theorem snd_lb_of_mem_assignIds {nextId : Int} {ls : List Int} {p : Int × Int}
    (hp : p ∈ assignIds nextId ls) : nextId ≤ p.2 := by
  induction ls generalizing nextId with
  | nil => simp [assignIds] at hp
  | cons l ls ih =>
    simp only [assignIds, List.mem_cons] at hp
    rcases hp with rfl | hp
    · exact le_refl _
    · have := ih hp
      omega

theorem assignIds_spec {ks : List Int} (hnd : ks.Nodup) (n : Int) {l : Int}
    (hl : l ∈ ks) :
    ∃ did, (l, did) ∈ assignIds n ks ∧
      (∀ p ∈ assignIds n ks, p.1 = l → p = (l, did)) ∧
      (∀ p ∈ assignIds n ks, p.2 = did → p = (l, did)) := by
  induction ks generalizing n with
  | nil => exact absurd hl (List.not_mem_nil l)
  | cons k ks ih =>
    rw [List.nodup_cons] at hnd
    rcases List.mem_cons.mp hl with rfl | hl
    · refine ⟨n, List.mem_cons_self _ _, ?_, ?_⟩
      · intro p hp hp1
        rcases List.mem_cons.mp hp with rfl | hp
        · rfl
        · exact absurd (by rw [← hp1]; exact fst_mem_of_mem_assignIds hp) hnd.1
      · intro p hp hp2
        rcases List.mem_cons.mp hp with rfl | hp
        · rfl
        · have := snd_lb_of_mem_assignIds hp
          omega
    · obtain ⟨did, hmem, huniq1, huniq2⟩ := ih hnd.2 (n + 1) hl
      have hdid : n + 1 ≤ did := snd_lb_of_mem_assignIds hmem
      refine ⟨did, List.mem_cons_of_mem _ hmem, ?_, ?_⟩
      · intro p hp hp1
        rcases List.mem_cons.mp hp with rfl | hp
        · exact absurd (by have hk : k = l := hp1; rw [hk]; exact hl) hnd.1
        · exact huniq1 p hp hp1
      · intro p hp hp2
        rcases List.mem_cons.mp hp with rfl | hp
        · exfalso; simp only at hp2; omega
        · exact huniq2 p hp hp2

theorem assignIds_length (n : Int) (ls : List Int) :
    (assignIds n ls).length = ls.length := by
  induction ls generalizing n with
  | nil => rfl
  | cons l ls ih => simp [assignIds, ih]

theorem snd_ub_of_mem_assignIds {n : Int} {ls : List Int} {p : Int × Int}
    (hp : p ∈ assignIds n ls) : p.2 < n + (ls.length : Int) := by
  induction ls generalizing n with
  | nil => simp [assignIds] at hp
  | cons l ls ih =>
    simp only [assignIds, List.mem_cons] at hp
    rcases hp with rfl | hp
    · simp only [List.length_cons]
      push_cast
      omega
    · have := ih hp
      simp only [List.length_cons]
      push_cast at this ⊢
      omega

theorem assignIds_snd_nodup (n : Int) (ls : List Int) :
    ((assignIds n ls).map Prod.snd).Nodup := by
  induction ls generalizing n with
  | nil => simp [assignIds]
  | cons l ls ih =>
    simp only [assignIds, List.map_cons, List.nodup_cons]
    refine ⟨?_, ih (n + 1)⟩
    intro hmem
    rw [List.mem_map] at hmem
    obtain ⟨p, hp, hpn⟩ := hmem
    have := snd_lb_of_mem_assignIds hp
    omega

theorem saveClustersToDb_ids_map (company : String) (items : List Nat)
    (labels : List Int) (et : String) (nc : Int) (ct : String) (nextId : Int) :
    (saveClustersToDb company items labels et nc ct nextId).1.map ClusterRow.id
      = (assignIds nextId ((sortedClusterKeys labels).filter (fun l => l != -1))).map
          Prod.snd := by
  simp only [saveClustersToDb, List.map_map]
  rfl

theorem saveClustersToDb_ids_nodup (company : String) (items : List Nat)
    (labels : List Int) (et : String) (nc : Int) (ct : String) (nextId : Int) :
    ((saveClustersToDb company items labels et nc ct nextId).1.map ClusterRow.id).Nodup := by
  rw [saveClustersToDb_ids_map]
  exact assignIds_snd_nodup nextId _

theorem id_bounds_of_mem_save {company : String} {items : List Nat}
    {labels : List Int} {et : String} {nc : Int} {ct : String} {nextId : Int}
    {r : ClusterRow}
    (hr : r ∈ (saveClustersToDb company items labels et nc ct nextId).1) :
    nextId ≤ r.id ∧
      r.id < nextId
        + ((saveClustersToDb company items labels et nc ct nextId).1.length : Int) := by
  simp only [saveClustersToDb, List.mem_map] at hr
  obtain ⟨p, hp, rfl⟩ := hr
  have h1 := snd_lb_of_mem_assignIds hp
  have h2 := snd_ub_of_mem_assignIds hp
  simp only [saveClustersToDb, List.length_map, assignIds_length]
  exact ⟨h1, h2⟩

theorem mem_of_mem_clearExistingClusters {company et : String} {nc : Int}
    {ct : String} {db : DbState} {r : ClusterRow}
    (hr : r ∈ (clearExistingClusters company et nc ct db).clusters) :
    r ∈ db.clusters := by
  unfold clearExistingClusters at hr
  split at hr
  · exact hr
  · exact List.mem_of_mem_filter hr

theorem clearExistingClusters_clusters (company et : String) (nc : Int)
    (ct : String) (db : DbState)
    (hnd : (db.clusters.map ClusterRow.id).Nodup) :
    (clearExistingClusters company et nc ct db).clusters
      = db.clusters.filter (fun c => !(clusterScopePred company et ct nc c)) := by
  unfold clearExistingClusters
  split
  case isTrue h =>
    have h2 := List.isEmpty_iff.mp h
    unfold doomedClusterIds at h2
    rw [List.map_eq_nil_iff] at h2
    symm
    rw [List.filter_eq_self]
    intro a ha
    have := List.filter_eq_nil_iff.mp h2 a ha
    simpa using this
  case isFalse h =>
    apply List.filter_congr
    intro c hc
    have hiff : (doomedClusterIds company et nc ct db).contains c.id
        = clusterScopePred company et ct nc c := by
      unfold doomedClusterIds
      by_cases hp : clusterScopePred company et ct nc c = true
      · rw [hp]
        have : c.id ∈ (db.clusters.filter (clusterScopePred company et ct nc)).map
            ClusterRow.id :=
          List.mem_map_of_mem _ (List.mem_filter.mpr ⟨hc, hp⟩)
        exact List.elem_eq_true_of_mem this
      · rw [Bool.eq_false_iff.mpr hp]
        rw [Bool.eq_false_iff]
        intro hcontains
        have hmem := List.mem_of_elem_eq_true hcontains
        rw [List.mem_map] at hmem
        obtain ⟨c', hc', hce⟩ := hmem
        have hceq : c' = c :=
          List.inj_on_of_nodup_map hnd (List.mem_of_mem_filter hc') hc hce
        exact hp (by rw [← hceq]; exact List.of_mem_filter hc')
    rw [hiff]

theorem runClusterEngine_clusters (company ct : String) (dims : Int)
    (items : List Nat) (labels : List Int) (nextId : Int) (db : DbState)
    (hnd : (db.clusters.map ClusterRow.id).Nodup) :
    (runClusterEngine company ct dims items labels nextId db).clusters
      = db.clusters.filter
          (fun c => !(clusterScopePred company (engineEmbeddingType dims) ct dims c))
        ++ (saveClustersToDb company items labels (engineEmbeddingType dims) dims ct
            nextId).1 := by
  unfold runClusterEngine
  rw [clearExistingClusters_clusters company (engineEmbeddingType dims) dims ct db hnd]

theorem scopePred_of_mem_save {company : String} {items : List Nat}
    {labels : List Int} {dims : Int} {ct : String} {nextId : Int} {r : ClusterRow}
    (hr : r ∈ (saveClustersToDb company items labels (engineEmbeddingType dims) dims ct
        nextId).1) :
    clusterScopePred company (engineEmbeddingType dims) ct dims r = true := by
  simp only [saveClustersToDb, List.mem_map] at hr
  obtain ⟨p, hp, rfl⟩ := hr
  unfold clusterScopePred effectiveComponents engineEmbeddingType
  by_cases h : (dims == 1536) = true
  · have hd : dims = 1536 := by simpa using h
    simp [h, hd]
  · simp [h]

theorem integrity_clearExistingClusters {company et : String} {nc : Int}
    {ct : String} {db : DbState}
    (hint : ∀ ga ∈ db.groupAssignments, ∃ r ∈ db.clusters, r.id = ga.cluster_id) :
    ∀ ga ∈ (clearExistingClusters company et nc ct db).groupAssignments,
      ∃ r ∈ (clearExistingClusters company et nc ct db).clusters,
        r.id = ga.cluster_id := by
  unfold clearExistingClusters
  split
  · exact hint
  · intro ga hga
    rw [List.mem_filter] at hga
    obtain ⟨hga1, hga2⟩ := hga
    obtain ⟨r, hr, hrid⟩ := hint ga hga1
    refine ⟨r, ?_, hrid⟩
    rw [List.mem_filter]
    refine ⟨hr, ?_⟩
    rw [hrid]
    exact hga2

theorem integrity_runClusterEngine {company ct : String} {dims : Int}
    {items : List Nat} {labels : List Int} {nextId : Int} {db : DbState}
    (hint : ∀ ga ∈ db.groupAssignments, ∃ r ∈ db.clusters, r.id = ga.cluster_id) :
    ∀ ga ∈ (runClusterEngine company ct dims items labels nextId db).groupAssignments,
      ∃ r ∈ (runClusterEngine company ct dims items labels nextId db).clusters,
        r.id = ga.cluster_id := by
  intro ga hga
  obtain ⟨r, hr, hrid⟩ :=
    @integrity_clearExistingClusters company (engineEmbeddingType dims) dims ct db
      hint ga hga
  exact ⟨r, List.mem_append_left _ hr, hrid⟩

theorem nodup_runClusterEngine (company ct : String) (dims : Int)
    (items : List Nat) (labels : List Int) (nextId : Int) (db : DbState)
    (hnd : (db.clusters.map ClusterRow.id).Nodup)
    (hfresh : ∀ r ∈ db.clusters, r.id < nextId) :
    ((runClusterEngine company ct dims items labels nextId db).clusters.map
      ClusterRow.id).Nodup := by
  rw [runClusterEngine_clusters company ct dims items labels nextId db hnd,
    List.map_append, List.nodup_append]
  refine ⟨((List.filter_sublist _).map _).nodup hnd,
    saveClustersToDb_ids_nodup company items labels _ dims ct nextId, ?_⟩
  rw [List.disjoint_left]
  intro a ha hb
  rw [List.mem_map] at ha hb
  obtain ⟨r, hr, rfl⟩ := ha
  obtain ⟨r2, hr2, he⟩ := hb
  have h1 : r.id < nextId := hfresh r (List.mem_of_mem_filter hr)
  have h2 : nextId ≤ r2.id := (id_bounds_of_mem_save hr2).1
  omega

theorem id_lt_of_mem_runClusterEngine {company ct : String} {dims : Int}
    {items : List Nat} {labels : List Int} {nextId : Int} {db : DbState}
    (hfresh : ∀ r ∈ db.clusters, r.id < nextId) (M : Int)
    (hM : nextId + ((saveClustersToDb company items labels (engineEmbeddingType dims)
        dims ct nextId).1.length : Int) ≤ M) :
    ∀ r ∈ (runClusterEngine company ct dims items labels nextId db).clusters,
      r.id < M := by
  intro r hr
  rcases List.mem_append.mp hr with h | h
  · have h2 := hfresh r (mem_of_mem_clearExistingClusters h)
    have h3 : (0 : Int)
        ≤ ((saveClustersToDb company items labels (engineEmbeddingType dims) dims ct
            nextId).1.length : Int) := Int.natCast_nonneg _
    omega
  · have h2 := (id_bounds_of_mem_save h).2
    omega

theorem sortedClusterKeys_nodup (labels : List Int) :
    (sortedClusterKeys labels).Nodup :=
  (List.perm_insertionSort _ _).symm.nodup (List.nodup_dedup labels)

theorem mem_sortedClusterKeys {labels : List Int} {l : Int} (hl : l ∈ labels) :
    l ∈ sortedClusterKeys labels := by
  unfold sortedClusterKeys
  rw [List.mem_insertionSort, List.mem_dedup]
  exact hl

theorem labelMembers_length (items : List Nat) (labels : List Int) (l : Int)
    (hlen : items.length = labels.length) :
    (labelMembers items labels l).length = labels.count l := by
  unfold labelMembers
  rw [List.length_map, ← List.countP_eq_length_filter, List.count_eq_countP]
  induction items generalizing labels with
  | nil =>
    have : labels = [] := List.eq_nil_of_length_eq_zero hlen.symm
    subst this; rfl
  | cons i is ih =>
    cases labels with
    | nil => simp at hlen
    | cons ll ls =>
      have hlen2 : is.length = ls.length := by simpa using hlen
      simp only [List.zip_cons_cons, List.countP_cons]
      rw [ih ls hlen2]

theorem insightTypeNone_of_mem_save {company : String} {items : List Nat}
    {labels : List Int} {et : String} {nc : Int} {ct : String} {nextId : Int}
    {r : ClusterRow}
    (hr : r ∈ (saveClustersToDb company items labels et nc ct nextId).1) :
    r.insight_type = none := by
  simp only [saveClustersToDb, List.mem_map] at hr
  obtain ⟨p, -, rfl⟩ := hr
  rfl

theorem itemClusterRef_clearExistingClusters (company et : String) (nc : Int)
    (ct : String) (db : DbState) :
    (clearExistingClusters company et nc ct db).itemClusterRef = db.itemClusterRef := by
  simp only [clearExistingClusters]
  split <;> rfl

theorem itemClusterRef_runClusterEngine (company ct : String) (dims : Int)
    (items : List Nat) (labels : List Int) (nextId : Int) (db : DbState) :
    (runClusterEngine company ct dims items labels nextId db).itemClusterRef
      = db.itemClusterRef := by
  simp only [runClusterEngine]
  exact itemClusterRef_clearExistingClusters ..

theorem find?_map_preserving {f : ClusterRow → ClusterRow}
    (hf : ∀ r, (f r).id = r.id) (table : List ClusterRow) (i : Int) :
    (table.map f).find? (fun r => r.id == i) =
      (table.find? (fun r => r.id == i)).map f := by
  induction table with
  | nil => rfl
  | cons a l ih =>
    rw [List.map_cons]
    simp only [List.find?]
    have hfa : ((f a).id == i) = (a.id == i) := by rw [hf]
    rw [hfa]
    cases h : (a.id == i) with
    | true => rfl
    | false => exact ih

theorem lookupCluster_id {table : List ClusterRow} {i : Int} {r : ClusterRow}
    (h : lookupCluster table i = some r) : r.id = i := by
  have := List.find?_some h
  simpa using this

theorem lookupCluster_applyLabeling (table : List ClusterRow) (i j : Int)
    (lab : ClusterLabeling) :
    lookupCluster (applyLabeling j lab table) i =
      (lookupCluster table i).map (fun r =>
        if r.id == j then
          { r with cluster_label := some lab.label, cluster_summary := some lab.summary }
        else r) := by
  unfold lookupCluster applyLabeling
  exact find?_map_preserving (fun r => by by_cases h : (r.id == j) = true <;> simp [h]) table i

theorem lookupCluster_labelClusterStep_ne
    (ins : List InsightRow) (llm : Int → Except String ClusterLabeling)
    (company et : String) (nc : Int) (k : Nat)
    (table : List ClusterRow) (c : ClusterRow) (i : Int) (h : c.id ≠ i) :
    lookupCluster (labelClusterStep ins llm company et nc k table c) i
      = lookupCluster table i := by
  unfold labelClusterStep
  split
  · rfl
  · cases hl : llm c.id with
    | error e => rfl
    | ok lab =>
      rw [lookupCluster_applyLabeling]
      cases hres : lookupCluster table i with
      | none => rfl
      | some r =>
        have hr : r.id = i := lookupCluster_id hres
        have hne : r.id ≠ c.id := by rw [hr]; exact fun hc => h hc.symm
        have hb : (r.id == c.id) = false := beq_eq_false_iff_ne.mpr hne
        simp [hb]
        exact fun he => absurd he hne

theorem lookupCluster_labelClusterStep_self
    (ins : List InsightRow) (llm : Int → Except String ClusterLabeling)
    (company et : String) (nc : Int) (k : Nat)
    (table : List ClusterRow) (c : ClusterRow) :
    lookupCluster (labelClusterStep ins llm company et nc k table c) c.id =
      if (findCentroidInsights ins c.id company et nc k).isEmpty then
        lookupCluster table c.id
      else
        match llm c.id with
        | .error _ => lookupCluster table c.id
        | .ok lab => (lookupCluster table c.id).map (fun r =>
            { r with cluster_label := some lab.label,
                     cluster_summary := some lab.summary }) := by
  unfold labelClusterStep
  split
  · rfl
  · cases hl : llm c.id with
    | error e => rfl
    | ok lab =>
      rw [lookupCluster_applyLabeling]
      cases hres : lookupCluster table c.id with
      | none => rfl
      | some r =>
        have hr : r.id = c.id := lookupCluster_id hres
        simp [hr]

theorem runLabelLoop_cons (ins : List InsightRow)
    (llm : Int → Except String ClusterLabeling) (company et : String) (nc : Int)
    (k : Nat) (c : ClusterRow) (cs : List ClusterRow) (table : List ClusterRow) :
    runLabelLoop ins llm company et nc k (c :: cs) table =
      runLabelLoop ins llm company et nc k cs
        (labelClusterStep ins llm company et nc k table c) := rfl

theorem lookupCluster_runLabelLoop_of_not_mem
    (ins : List InsightRow) (llm : Int → Except String ClusterLabeling)
    (company et : String) (nc : Int) (k : Nat)
    (clusters : List ClusterRow) (table : List ClusterRow) (i : Int)
    (h : ∀ c ∈ clusters, c.id ≠ i) :
    lookupCluster (runLabelLoop ins llm company et nc k clusters table) i
      = lookupCluster table i := by
  induction clusters generalizing table with
  | nil => rfl
  | cons c cs ih =>
    rw [runLabelLoop_cons, ih _ (fun c' hc' => h c' (List.mem_cons_of_mem c hc')),
      lookupCluster_labelClusterStep_ne _ _ _ _ _ _ _ _ _ (h c (List.mem_cons_self c cs))]

/-- General characterization of the `label_clusters` per-cluster loop: each
visited cluster's final stored row is determined by its own outcome only
(skip on empty centroid set, rollback on LLM failure, overwrite on success),
independent of the outcomes of the other clusters. -/
theorem runLabelLoop_lookup
    (ins : List InsightRow) (llm : Int → Except String ClusterLabeling)
    (company et : String) (nc : Int) (k : Nat)
    (clusters : List ClusterRow) (table : List ClusterRow)
    (hnd : (clusters.map ClusterRow.id).Nodup) :
    ∀ c ∈ clusters,
      lookupCluster (runLabelLoop ins llm company et nc k clusters table) c.id =
        if (findCentroidInsights ins c.id company et nc k).isEmpty then
          lookupCluster table c.id
        else
          match llm c.id with
          | .error _ => lookupCluster table c.id
          | .ok lab => (lookupCluster table c.id).map (fun r =>
              { r with cluster_label := some lab.label,
                       cluster_summary := some lab.summary }) := by
  induction clusters generalizing table with
  | nil => intro c hc; exact absurd hc (List.not_mem_nil c)
  | cons c cs ih =>
    rw [List.map_cons, List.nodup_cons] at hnd
    intro c0 hc0
    rcases List.mem_cons.mp hc0 with rfl | hc0
    · rw [runLabelLoop_cons,
        lookupCluster_runLabelLoop_of_not_mem _ _ _ _ _ _ _ _ _
          (fun c' hc' hne =>
            hnd.1 (by rw [← hne]; exact List.mem_map_of_mem ClusterRow.id hc'))]
      exact lookupCluster_labelClusterStep_self ins llm company et nc k table c0
    · have hne : c.id ≠ c0.id := by
        intro he
        exact hnd.1 (by rw [he]; exact List.mem_map_of_mem ClusterRow.id hc0)
      rw [runLabelLoop_cons]
      have := ih (labelClusterStep ins llm company et nc k table c) hnd.2 c0 hc0
      rwa [lookupCluster_labelClusterStep_ne _ _ _ _ _ _ _ _ _ hne] at this

theorem labelSelectPred_iff (company t et : String) (nc : Int) (force : Bool)
    (r : ClusterRow) :
    labelSelectPred company t et nc force r = true ↔
      (r.company_name = company ∧ r.insight_type = some t ∧ r.embedding_type = et ∧
        (force = true ∨ r.cluster_label = none) ∧ (et = "reduced" → r.n_components = nc)) := by
  unfold labelSelectPred
  by_cases het : et = "reduced"
  · have hb : (et == "reduced") = true := beq_iff_eq.mpr het
    simp only [hb, if_true, Bool.and_eq_true, Bool.or_eq_true, beq_iff_eq]
    constructor
    · rintro ⟨⟨⟨⟨h1, h2⟩, h3⟩, h4⟩, h5⟩
      exact ⟨h1, h2, h3, h4, fun _ => h5⟩
    · rintro ⟨h1, h2, h3, h4, h5⟩
      exact ⟨⟨⟨⟨h1, h2⟩, h3⟩, h4⟩, h5 het⟩
  · have hb : (et == "reduced") = false := beq_eq_false_iff_ne.mpr het
    simp only [hb, Bool.false_eq_true, if_false, Bool.and_true, Bool.and_eq_true,
      Bool.or_eq_true, beq_iff_eq]
    constructor
    · rintro ⟨⟨⟨h1, h2⟩, h3⟩, h4⟩
      exact ⟨h1, h2, h3, h4, fun he => absurd he het⟩
    · rintro ⟨h1, h2, h3, h4, -⟩
      exact ⟨⟨⟨h1, h2⟩, h3⟩, h4⟩

theorem contains_iff {l : List Int} {i : Int} : l.contains i = true ↔ i ∈ l :=
  List.elem_iff

theorem contains_eq_false_iff {l : List Int} {i : Int} :
    (l.contains i = false) ↔ i ∉ l := by
  constructor
  · intro h hm
    have h2 := contains_iff.mpr hm
    rw [h2] at h
    cases h
  · intro h
    cases hc : l.contains i
    · rfl
    · exact absurd (contains_iff.mp hc) h

theorem mem_keptIds {seen ids : List Int} {i : Int} :
    i ∈ ids.filter (fun c => !(seen.contains c)) ↔ (i ∈ ids ∧ i ∉ seen) := by
  rw [List.mem_filter, Bool.not_eq_true', contains_eq_false_iff]

theorem llmFlatIds_nil : llmFlatIds [] = [] := rfl

theorem llmFlatIds_cons (g : LlmGroup) (gs : List LlmGroup) :
    llmFlatIds (g :: gs) = g.cluster_ids ++ llmFlatIds gs := by
  simp [llmFlatIds]

theorem mem_llmFlatIds {gs : List LlmGroup} {i : Int} :
    i ∈ llmFlatIds gs ↔ ∃ g ∈ gs, i ∈ g.cluster_ids := by
  unfold llmFlatIds
  rw [List.mem_flatten]
  constructor
  · rintro ⟨l, hl, hil⟩
    rw [List.mem_map] at hl
    obtain ⟨g, hg, rfl⟩ := hl
    exact ⟨g, hg, hil⟩
  · rintro ⟨g, hg, hil⟩
    exact ⟨g.cluster_ids, List.mem_map_of_mem _ hg, hil⟩

theorem mem_llmFlatIds_dedupPass (seen : List Int) (gs : List LlmGroup) (i : Int) :
    i ∈ llmFlatIds (dedupPass seen gs) ↔ (i ∉ seen ∧ i ∈ llmFlatIds gs) := by
  induction gs generalizing seen with
  | nil => simp [dedupPass, llmFlatIds]
  | cons g gs ih =>
    simp only [dedupPass, llmFlatIds_cons, List.mem_append, ih, mem_keptIds,
      List.mem_append]
    by_cases h1 : i ∈ seen <;> by_cases h2 : i ∈ g.cluster_ids <;> simp [h1, h2]

theorem countP_eq_zero_of_not_mem_flat {gs : List LlmGroup} {i : Int}
    (h : i ∉ llmFlatIds gs) :
    gs.countP (fun g => g.cluster_ids.contains i) = 0 := by
  rw [List.countP_eq_zero]
  intro g hg hp
  exact h (mem_llmFlatIds.mpr ⟨g, hg, contains_iff.mp hp⟩)

theorem countP_dedupPass_of_mem_seen {seen : List Int} {gs : List LlmGroup} {i : Int}
    (h : i ∈ seen) :
    (dedupPass seen gs).countP (fun g => g.cluster_ids.contains i) = 0 := by
  apply countP_eq_zero_of_not_mem_flat
  rw [mem_llmFlatIds_dedupPass]
  intro hcon
  exact hcon.1 h

theorem countP_dedupPass (seen : List Int) (gs : List LlmGroup) (i : Int)
    (h : i ∉ seen) :
    (dedupPass seen gs).countP (fun g => g.cluster_ids.contains i)
      = if i ∈ llmFlatIds gs then 1 else 0 := by
  induction gs generalizing seen with
  | nil => simp [dedupPass, llmFlatIds]
  | cons g gs ih =>
    simp only [dedupPass, List.countP_cons]
    by_cases h2 : i ∈ g.cluster_ids
    · have hkept : i ∈ g.cluster_ids.filter (fun c => !(seen.contains c)) :=
        mem_keptIds.mpr ⟨h2, h⟩
      have hpred : ({ g with
          cluster_ids := g.cluster_ids.filter (fun c => !(seen.contains c)) }
            : LlmGroup).cluster_ids.contains i = true :=
        contains_iff.mpr hkept
      rw [countP_dedupPass_of_mem_seen (List.mem_append_right seen hkept), hpred]
      rw [llmFlatIds_cons]
      simp [List.mem_append, h2]
    · have hkept : i ∉ g.cluster_ids.filter (fun c => !(seen.contains c)) := by
        rw [mem_keptIds]
        exact fun hc => h2 hc.1
      have hpred : ({ g with
          cluster_ids := g.cluster_ids.filter (fun c => !(seen.contains c)) }
            : LlmGroup).cluster_ids.contains i = false :=
        contains_eq_false_iff.mpr hkept
      have hseen2 : i ∉ seen ++ g.cluster_ids.filter (fun c => !(seen.contains c)) := by
        rw [List.mem_append]
        rintro (hc | hc)
        · exact h hc
        · exact hkept hc
      rw [ih _ hseen2, hpred, llmFlatIds_cons]
      simp [List.mem_append, h2]

theorem countP_of_flat_nodup (gs : List LlmGroup) (i : Int)
    (h : (llmFlatIds gs).Nodup) :
    gs.countP (fun g => g.cluster_ids.contains i)
      = if i ∈ llmFlatIds gs then 1 else 0 := by
  induction gs with
  | nil => simp [llmFlatIds]
  | cons g gs ih =>
    rw [llmFlatIds_cons] at h ⊢
    rw [List.nodup_append] at h
    obtain ⟨hg, hgs, hdisj⟩ := h
    simp only [List.countP_cons]
    by_cases h2 : i ∈ g.cluster_ids
    · have hnot : i ∉ llmFlatIds gs := List.disjoint_left.mp hdisj h2
      rw [countP_eq_zero_of_not_mem_flat hnot, contains_iff.mpr h2]
      simp [List.mem_append, h2]
    · rw [ih hgs, contains_eq_false_iff.mpr h2]
      simp [List.mem_append, h2]

theorem countP_dedupedGroups (gs : List LlmGroup) (i : Int) :
    (dedupedGroups gs).countP (fun g => g.cluster_ids.contains i)
      = if i ∈ llmFlatIds gs then 1 else 0 := by
  unfold dedupedGroups
  split
  case isTrue h => exact countP_of_flat_nodup gs i h
  case isFalse h => exact countP_dedupPass [] gs i (List.not_mem_nil i)

theorem mem_llmFlatIds_dedupedGroups {gs : List LlmGroup} {i : Int} :
    i ∈ llmFlatIds (dedupedGroups gs) ↔ i ∈ llmFlatIds gs := by
  unfold dedupedGroups
  split
  · exact Iff.rfl
  · rw [mem_llmFlatIds_dedupPass]
    simp

theorem singletonGroupFor_ids (clusters : List ClusterRow) (i : Int) :
    (singletonGroupFor clusters i).cluster_ids = [i] := by
  unfold singletonGroupFor
  cases clusters.find? (fun c => c.id == i) <;> rfl

theorem mem_missingScopeIds {clusters : List ClusterRow} {gs : List LlmGroup}
    {i : Int} :
    i ∈ missingScopeIds clusters gs ↔
      (i ∈ clusters.map ClusterRow.id ∧ i ∉ llmFlatIds gs) := by
  unfold missingScopeIds
  rw [List.mem_filter, Bool.not_eq_true', contains_eq_false_iff,
    mem_llmFlatIds_dedupedGroups]

theorem findIdx?_dedupPass (seen : List Int) (gs : List LlmGroup) (i : Int)
    (h : i ∉ seen) (n : Nat) :
    (dedupPass seen gs).findIdx? (fun g => g.cluster_ids.contains i) n
      = gs.findIdx? (fun g => g.cluster_ids.contains i) n := by
  induction gs generalizing seen n with
  | nil => rfl
  | cons g gs ih =>
    simp only [dedupPass, List.findIdx?_cons]
    have hpred : ({ g with
        cluster_ids := g.cluster_ids.filter (fun c => !(seen.contains c)) }
          : LlmGroup).cluster_ids.contains i = g.cluster_ids.contains i := by
      by_cases h2 : i ∈ g.cluster_ids
      · rw [contains_iff.mpr (mem_keptIds.mpr ⟨h2, h⟩), contains_iff.mpr h2]
      · rw [contains_eq_false_iff.mpr (fun hc => h2 (mem_keptIds.mp hc).1),
          contains_eq_false_iff.mpr h2]
    rw [hpred]
    cases hq : g.cluster_ids.contains i
    · simp only [Bool.false_eq_true, if_false]
      apply ih
      rw [List.mem_append]
      rintro (hc | hc)
      · exact h hc
      · exact contains_eq_false_iff.mp hq (mem_keptIds.mp hc).1
    · simp

theorem findIdx?_dedupedGroups (gs : List LlmGroup) (i : Int) :
    (dedupedGroups gs).findIdx? (fun g => g.cluster_ids.contains i)
      = gs.findIdx? (fun g => g.cluster_ids.contains i) := by
  unfold dedupedGroups
  split
  · rfl
  · exact findIdx?_dedupPass [] gs i (List.not_mem_nil i) 0

theorem find?_clusters_eq_some {clusters : List ClusterRow} {c : ClusterRow} {i : Int}
    (hnd : (clusters.map ClusterRow.id).Nodup) (hc : c ∈ clusters) (hid : c.id = i) :
    clusters.find? (fun r => r.id == i) = some c := by
  induction clusters with
  | nil => cases hc
  | cons a l ih =>
    rw [List.map_cons, List.nodup_cons] at hnd
    cases ha : (a.id == i)
    · have hne : a.id ≠ i := beq_eq_false_iff_ne.mp ha
      have hcl : c ∈ l := by
        rcases List.mem_cons.mp hc with rfl | hmem
        · exact absurd hid hne
        · exact hmem
      rw [List.find?_cons_of_neg _ (by simp [ha])]
      exact ih hnd.2 hcl
    · have hae : a.id = i := beq_iff_eq.mp ha
      have hac : a = c := by
        rcases List.mem_cons.mp hc with rfl | hmem
        · rfl
        · exact absurd (by rw [hae, ← hid]; exact List.mem_map_of_mem ClusterRow.id hmem)
            hnd.1
      simp only [List.find?]
      rw [ha, hac]

theorem countP_singleton_groups (clusters : List ClusterRow) (missing : List Int)
    (i : Int) (hnd : missing.Nodup) :
    (missing.map (singletonGroupFor clusters)).countP
        (fun g => g.cluster_ids.contains i)
      = if i ∈ missing then 1 else 0 := by
  rw [List.countP_map]
  have hpt : ∀ j ∈ missing,
      ((fun g => g.cluster_ids.contains i) ∘ singletonGroupFor clusters) j
        = (j == i) := by
    intro j _
    simp only [Function.comp]
    rw [singletonGroupFor_ids]
    by_cases h : j = i
    · subst h
      rw [contains_iff.mpr (List.mem_singleton.mpr rfl), beq_self_eq_true]
    · have h1 : (([j] : List Int).contains i) = false :=
        contains_eq_false_iff.mpr (by
          rw [List.mem_singleton]
          exact fun he => h he.symm)
      rw [h1, beq_eq_false_iff_ne.mpr h]
  rw [List.countP_congr (fun x hx => by rw [hpt x hx]), ← List.count_eq_countP i missing]
  by_cases hm : i ∈ missing
  · rw [if_pos hm, List.count_eq_one_of_mem hnd hm]
  · rw [if_neg hm, List.count_eq_zero.mpr hm]

/-! ### Claim theorems -/

/-- **C9** (confirmed).  For every input batch of `N` points with `N > 1`, the
Dimensionality Reducer constructs the UMAP reduction with its neighbor
parameter clamped to `min(15, N-1)`; the clamped value satisfies UMAP's
requirement of at least `n_neighbors + 1` input points, so the construction
succeeds instead of raising a configuration error.  The witness instantiates
the claim's scenario: 10 items, 5 target dimensions, 9 neighbors. -/
theorem c9_umap_neighbor_clamp (targetDims : Int) (numItems : Nat)
    (h : 1 < numItems) :
    (buildUmap targetDims numItems).n_neighbors = min 15 ((numItems : Int) - 1) ∧
    (buildUmap targetDims numItems).n_neighbors + 1 ≤ ((numItems : Nat) : Int) := by
  have h' : (1 : Int) < (numItems : Int) := by exact_mod_cast h
  refine ⟨rfl, ?_⟩
  show min 15 ((numItems : Int) - 1) + 1 ≤ ((numItems : Nat) : Int)
  have hmr := min_le_right (15 : Int) ((numItems : Int) - 1)
  omega

/-- Witness for C9 at the claim's own scenario (N = 10, target 5). -/
theorem c9_witness :
    (1 < 10) ∧
    ((buildUmap 5 10).n_neighbors = min 15 (((10 : Nat) : Int) - 1) ∧
      (buildUmap 5 10).n_neighbors + 1 ≤ ((10 : Nat) : Int)) ∧
    (buildUmap 5 10).n_neighbors = 9 :=
  ⟨by decide, c9_umap_neighbor_clamp 5 10 (by decide), by decide⟩

/-- **C6** (code bug).  `generate_reduced_embeddings` with `force=True` never
deletes the existing (item, target-dimensionality) rows: the save loop skips
the existence check and stages a second INSERT for the same pair, which the
unique index `idx_complaint_embeddings_unique` rejects at `session.commit()`
— the uncaught `IntegrityError` aborts the run and rolls the transaction
back.  Concretely, starting from a table holding the single row (item 1,
5 dims), the forced run over the one-item batch stages two identical (1, 5)
rows and the commit raises, so the old embedding is kept and no regenerated
embedding is ever written — instead of the delete-then-recreate the claim
describes.  A non-forced run over the same input skips the item and commits
the unchanged table. -/
theorem c6_force_raises_integrity_error :
    saveReducedLoop true 5 [1] [{ item_id := 1, dims := 5 }]
        = [{ item_id := 1, dims := 5 }, { item_id := 1, dims := 5 }] ∧
    saveReducedEmbeddings true 5 [1] [{ item_id := 1, dims := 5 }]
        = Except.error "IntegrityError" ∧
    saveReducedEmbeddings false 5 [1] [{ item_id := 1, dims := 5 }]
        = Except.ok [{ item_id := 1, dims := 5 }] :=
  ⟨rfl, rfl, rfl⟩

/-- **C3** (confirmed).  Every `Cluster` row created by `cluster_items` (via
`save_clusters_to_db`) carries `insight_type = None`, while `label_clusters`
and `semantic_clustering_analysis` select clusters through an
`insight_type == <string argument>` WHERE clause; a NULL column never equals a
string, so for every string argument neither downstream stage ever selects a
row produced by `cluster_items`, whatever the remaining query parameters and
whatever table the row sits in. -/
theorem c3_cluster_items_rows_never_selected
    (company : String) (items : List Nat) (labels : List Int)
    (et : String) (nc : Int) (ct : String) (nextId : Int) (r : ClusterRow)
    (hr : r ∈ (saveClustersToDb company items labels et nc ct nextId).1)
    (t company2 et2 : String) (n2 : Int) (force : Bool) (table : List ClusterRow) :
    r ∉ labelClustersSelection company2 t et2 n2 force table ∧
    r ∉ semanticClustersSelection company2 t et2 n2 table := by
  have hnone : r.insight_type = none := insightTypeNone_of_mem_save hr
  constructor
  · intro hmem
    have h := List.of_mem_filter hmem
    simp [labelSelectPred, hnone] at h
  · intro hmem
    have h := List.of_mem_filter hmem
    simp [semanticSelectPred, hnone] at h

/-- Witness for C3: the single row the engine saves for label 0 is selected
neither by a labeling query nor by a semantic-grouping query for
`insight_type = "pain_point"`, even over a table that contains it. -/
theorem c3_witness :
    (exampleEngineRow ∈ (saveClustersToDb "acme" [7] [0] "reduced" 50 "complaints" 1).1) ∧
    (exampleEngineRow
        ∉ labelClustersSelection "acme" "pain_point" "reduced" 50 false [exampleEngineRow] ∧
      exampleEngineRow
        ∉ semanticClustersSelection "acme" "pain_point" "reduced" 50 [exampleEngineRow]) :=
  ⟨by decide,
   c3_cluster_items_rows_never_selected "acme" [7] [0] "reduced" 50 "complaints" 1
     exampleEngineRow (by decide) "pain_point" "acme" "reduced" 50 false
     [exampleEngineRow]⟩

/-- **C5** (confirmed).  The noise sentinel `-1` never gives rise to a
persisted `Cluster` row: every entry of the returned `label_to_db_id` mapping
has a non-noise label, and the created rows are exactly one per mapping
entry.  Moreover, for an item classified as noise whose stored cluster
reference is NULL, a full engine run leaves the reference NULL (the engine
writes no item→cluster assignment at all). -/
theorem c5_noise_exclusion
    (company ct : String) (dims : Int) (items : List Nat) (labels : List Int)
    (nextId : Int) (db : DbState) (item : Nat)
    (_hnoise : (item, (-1 : Int)) ∈ items.zip labels)
    (hnull : refLookup db item = none) :
    (∀ (et : String) (nc : Int),
      ∀ p ∈ (saveClustersToDb company items labels et nc ct nextId).2, p.1 ≠ -1) ∧
    (∀ (et : String) (nc : Int),
      (saveClustersToDb company items labels et nc ct nextId).1.length
        = (saveClustersToDb company items labels et nc ct nextId).2.length) ∧
    refLookup (runClusterEngine company ct dims items labels nextId db) item = none := by
  refine ⟨?_, ?_, ?_⟩
  · intro et nc p hp
    have h1 : p.1 ∈ (sortedClusterKeys labels).filter (fun l => l != -1) :=
      fst_mem_of_mem_assignIds hp
    have h2 := List.of_mem_filter h1
    simpa using h2
  · intro et nc
    simp [saveClustersToDb]
  · unfold refLookup
    rw [itemClusterRef_runClusterEngine]
    exact hnull

/-- Witness for C5: item 7 is noise in a two-item batch; after a full engine
run from a database in which item 7's reference is NULL, it is still NULL,
and the saved mapping contains no entry for `-1`. -/
theorem c5_witness :
    ((7, (-1 : Int)) ∈ ([7, 8].zip [-1, 0] : List (Nat × Int))) ∧
    (refLookup { clusters := [], groupAssignments := [],
                 itemClusterRef := [(7, none)] } 7 = none) ∧
    ((∀ (et : String) (nc : Int),
        ∀ p ∈ (saveClustersToDb "acme" [7, 8] [-1, 0] et nc "complaints" 1).2,
          p.1 ≠ -1) ∧
     (∀ (et : String) (nc : Int),
        (saveClustersToDb "acme" [7, 8] [-1, 0] et nc "complaints" 1).1.length
          = (saveClustersToDb "acme" [7, 8] [-1, 0] et nc "complaints" 1).2.length) ∧
     refLookup (runClusterEngine "acme" "complaints" 50 [7, 8] [-1, 0] 1
        { clusters := [], groupAssignments := [], itemClusterRef := [(7, none)] }) 7
       = none) :=
  ⟨by decide, by decide,
   c5_noise_exclusion "acme" "complaints" 50 [7, 8] [-1, 0] 1
     { clusters := [], groupAssignments := [], itemClusterRef := [(7, none)] } 7
     (by decide) (by decide)⟩

/-- **C8** (confirmed).  Without `force`, `label_clusters` selects exactly the
in-scope clusters whose label is NULL; with `force`, it selects every
in-scope cluster, and a successfully processed cluster has its stored label
and summary overwritten with the LLM's values regardless of what was stored
before.  The witness instantiates the claim's scenario: of 3 in-scope
clusters with 1 already labeled, the non-force selection holds exactly the 2
unlabeled ones, the force selection all 3, and a force run overwrites the
existing label. -/
theorem c8_force_vs_nonforce_selection
    (company t et : String) (nc : Int) (table : List ClusterRow) :
    (∀ r : ClusterRow,
      r ∈ labelClustersSelection company t et nc false table ↔
        r ∈ table ∧ r.company_name = company ∧ r.insight_type = some t ∧
          r.embedding_type = et ∧ (et = "reduced" → r.n_components = nc) ∧
          r.cluster_label = none) ∧
    (∀ r : ClusterRow,
      r ∈ labelClustersSelection company t et nc true table ↔
        r ∈ table ∧ r.company_name = company ∧ r.insight_type = some t ∧
          r.embedding_type = et ∧ (et = "reduced" → r.n_components = nc)) ∧
    (∀ (ins : List InsightRow) (llm : Int → Except String ClusterLabeling) (k : Nat),
      ((labelClustersSelection company t et nc true table).map ClusterRow.id).Nodup →
      ∀ c ∈ labelClustersSelection company t et nc true table,
        ∀ lab : ClusterLabeling, llm c.id = Except.ok lab →
          (findCentroidInsights ins c.id company et nc k).isEmpty = false →
          lookupCluster (labelClustersRun ins llm company t et nc k true table) c.id
            = (lookupCluster table c.id).map (fun r =>
                { r with cluster_label := some lab.label,
                         cluster_summary := some lab.summary })) := by
  refine ⟨?_, ?_, ?_⟩
  · intro r
    simp only [labelClustersSelection, List.mem_filter, labelSelectPred_iff,
      Bool.false_eq_true, false_or]
    tauto
  · intro r
    simp only [labelClustersSelection, List.mem_filter, labelSelectPred_iff]
    tauto
  · intro ins llm k hnd c hc lab hok hemp
    have h := runLabelLoop_lookup ins llm company et nc k
      (labelClustersSelection company t et nc true table) table hnd c hc
    simpa [labelClustersRun, hemp, hok] using h

/-- Witness for C8 at the claim's scenario: clusters 1 and 3 are unlabeled,
cluster 2 is labeled; the non-force selection has the 2 unlabeled clusters,
the force selection all 3, and a force run overwrites cluster 2's old label
and summary with the LLM's new values. -/
theorem c8_witness :
    ((labelClustersSelection "acme" "pain_point" "reduced" 5 false exampleClusterTable)
        = [exampleClusterA, exampleClusterC]) ∧
    ((labelClustersSelection "acme" "pain_point" "reduced" 5 true exampleClusterTable)
        = exampleClusterTable) ∧
    (exampleClusterB
        ∈ labelClustersSelection "acme" "pain_point" "reduced" 5 true exampleClusterTable ∧
      exampleClusterB
        ∉ labelClustersSelection "acme" "pain_point" "reduced" 5 false exampleClusterTable) ∧
    lookupCluster
        (labelClustersRun exampleInsightTable exampleLlmOk "acme" "pain_point" "reduced" 5 10
          true exampleClusterTable) exampleClusterB.id
      = some { exampleClusterB with
                cluster_label := some "New Label",
                cluster_summary := some "New summary" } := by
  refine ⟨by decide, by decide, ⟨by decide, by decide⟩, ?_⟩
  have h := (c8_force_vs_nonforce_selection "acme" "pain_point" "reduced" 5
      exampleClusterTable).2.2 exampleInsightTable exampleLlmOk 10 (by decide)
      exampleClusterB (by decide)
      { label := "New Label", summary := "New summary" } rfl (by decide)
  exact h.trans (by decide)

/-- **C10** (confirmed).  In a labeling run, each visited cluster's final
stored row is fully determined by that cluster's own outcome: a cluster whose
centroid-insight lookup returns no retrievable member embeddings is skipped
(row unchanged) and processing continues; a cluster whose LLM call raises has
the exception caught and its pending changes rolled back (stored label and
summary unchanged) and processing continues; a successful cluster's label and
summary are written — so one cluster's failure never aborts or alters the
processing of the remaining clusters. -/
theorem c10_failure_isolation
    (ins : List InsightRow) (llm : Int → Except String ClusterLabeling)
    (company et : String) (nc : Int) (k : Nat)
    (clusters : List ClusterRow) (table : List ClusterRow)
    (hnd : (clusters.map ClusterRow.id).Nodup) :
    ∀ c ∈ clusters,
      lookupCluster (runLabelLoop ins llm company et nc k clusters table) c.id =
        if (findCentroidInsights ins c.id company et nc k).isEmpty then
          lookupCluster table c.id
        else
          match llm c.id with
          | .error _ => lookupCluster table c.id
          | .ok lab => (lookupCluster table c.id).map (fun r =>
              { r with cluster_label := some lab.label,
                       cluster_summary := some lab.summary }) :=
  runLabelLoop_lookup ins llm company et nc k clusters table hnd

/-- Witness for C10: three clusters — cluster 1 with zero retrievable member
embeddings (skipped, unchanged), cluster 2 whose LLM call fails (rolled back,
old label kept), cluster 3 whose call succeeds (labeled) — all from one run
over the same batch. -/
theorem c10_witness :
    ((exampleClusterTable.map ClusterRow.id).Nodup) ∧
    (∀ c ∈ exampleClusterTable,
      lookupCluster (runLabelLoop exampleInsightTable exampleLlmFailOn2 "acme" "reduced" 5
          10 exampleClusterTable exampleClusterTable) c.id =
        if (findCentroidInsights exampleInsightTable c.id "acme" "reduced" 5 10).isEmpty then
          lookupCluster exampleClusterTable c.id
        else
          match exampleLlmFailOn2 c.id with
          | .error _ => lookupCluster exampleClusterTable c.id
          | .ok lab => (lookupCluster exampleClusterTable c.id).map (fun r =>
              { r with cluster_label := some lab.label,
                       cluster_summary := some lab.summary })) ∧
    (lookupCluster (runLabelLoop exampleInsightTable exampleLlmFailOn2 "acme" "reduced" 5
        10 exampleClusterTable exampleClusterTable) 1 = some exampleClusterA) ∧
    (lookupCluster (runLabelLoop exampleInsightTable exampleLlmFailOn2 "acme" "reduced" 5
        10 exampleClusterTable exampleClusterTable) 2 = some exampleClusterB) ∧
    (lookupCluster (runLabelLoop exampleInsightTable exampleLlmFailOn2 "acme" "reduced" 5
        10 exampleClusterTable exampleClusterTable) 3
      = some { exampleClusterC with
                cluster_label := some "New Label",
                cluster_summary := some "New summary" }) :=
  ⟨by decide,
   c10_failure_isolation exampleInsightTable exampleLlmFailOn2 "acme" "reduced" 5 10
     exampleClusterTable exampleClusterTable (by decide),
   by decide, by decide, by decide⟩

/-- **C7** (confirmed).  For every cluster with at least one member whose
embedding at the cluster's own dimensionality/type is retrievable,
`find_centroid_insights` returns `min k m` items where `m` is the number of
such members (at most `k`, fewer when the cluster has fewer), every returned
item belongs to that cluster (and company), and the returned items are in
non-decreasing order of Euclidean distance to the mean of all member
embedding vectors. -/
theorem c7_centroid_nearest_k
    (table : List InsightRow) (cid : Int) (company et : String) (nc : Int) (k : Nat)
    (hne : centroidMemberRows table cid company (embeddingColumn et nc) ≠ []) :
    (findCentroidInsights table cid company et nc k).length
        = min k (centroidMemberRows table cid company (embeddingColumn et nc)).length ∧
    (∀ r ∈ findCentroidInsights table cid company et nc k,
        r ∈ table ∧ r.cluster_id = some cid ∧ r.company_name = company) ∧
    (findCentroidInsights table cid company et nc k).Pairwise (fun a b =>
        euclidDist ((a.embAt (embeddingColumn et nc)).getD [])
            (centroidOf table cid company et nc)
          ≤ euclidDist ((b.embAt (embeddingColumn et nc)).getD [])
            (centroidOf table cid company et nc)) := by
  have hempty :
      (centroidMemberRows table cid company (embeddingColumn et nc)).isEmpty = false := by
    simpa [List.isEmpty_iff] using hne
  simp only [findCentroidInsights, hempty, Bool.false_eq_true, if_false]
  refine ⟨?_, ?_, ?_⟩
  · rw [List.length_take, List.length_insertionSort]
  · intro r hr
    have h1 := List.mem_of_mem_take hr
    rw [List.mem_insertionSort] at h1
    obtain ⟨hmem, hpred⟩ := List.mem_filter.mp h1
    simp only [Bool.and_eq_true, beq_iff_eq] at hpred
    exact ⟨hmem, hpred.1.1, hpred.1.2⟩
  · haveI htot : IsTotal InsightRow (fun a b =>
        distSq ((a.embAt (embeddingColumn et nc)).getD [])
            (centroidOf table cid company et nc)
          ≤ distSq ((b.embAt (embeddingColumn et nc)).getD [])
            (centroidOf table cid company et nc)) :=
      ⟨fun a b => le_total _ _⟩
    haveI htrans : IsTrans InsightRow (fun a b =>
        distSq ((a.embAt (embeddingColumn et nc)).getD [])
            (centroidOf table cid company et nc)
          ≤ distSq ((b.embAt (embeddingColumn et nc)).getD [])
            (centroidOf table cid company et nc)) :=
      ⟨fun a b c hab hbc => le_trans hab hbc⟩
    have hsorted := List.sorted_insertionSort (fun a b =>
        distSq ((a.embAt (embeddingColumn et nc)).getD [])
            (centroidOf table cid company et nc)
          ≤ distSq ((b.embAt (embeddingColumn et nc)).getD [])
            (centroidOf table cid company et nc))
      (centroidMemberRows table cid company (embeddingColumn et nc))
    have hp := List.Pairwise.sublist (List.take_sublist k _) hsorted
    exact hp.imp (fun hab =>
      Real.sqrt_le_sqrt (by exact_mod_cast hab))

/-- Witness for C7: a cluster of three members with 2-dimensional embeddings
(centroid `[2, 0]`), asked for 10 centroid insights, returns all three
members in non-decreasing distance order. -/
theorem c7_witness :
    (centroidMemberRows exampleCentroidTable 3 "acme" (embeddingColumn "reduced" 2) ≠ []) ∧
    ((findCentroidInsights exampleCentroidTable 3 "acme" "reduced" 2 10).length
        = min 10 (centroidMemberRows exampleCentroidTable 3 "acme"
            (embeddingColumn "reduced" 2)).length ∧
      (∀ r ∈ findCentroidInsights exampleCentroidTable 3 "acme" "reduced" 2 10,
          r ∈ exampleCentroidTable ∧ r.cluster_id = some 3 ∧ r.company_name = "acme") ∧
      (findCentroidInsights exampleCentroidTable 3 "acme" "reduced" 2 10).Pairwise
        (fun a b =>
          euclidDist ((a.embAt (embeddingColumn "reduced" 2)).getD [])
              (centroidOf exampleCentroidTable 3 "acme" "reduced" 2)
            ≤ euclidDist ((b.embAt (embeddingColumn "reduced" 2)).getD [])
              (centroidOf exampleCentroidTable 3 "acme" "reduced" 2))) :=
  ⟨by decide, c7_centroid_nearest_k exampleCentroidTable 3 "acme" "reduced" 2 10 (by decide)⟩

/-- **C1** (corrected) — counterexample.  The claim asserts that the engine
"persists an item→cluster assignment for each non-noise item".  Running the
engine over five items all carrying the non-noise label 0, starting from a
database whose items have NULL cluster references, produces a cluster row but
leaves every item's persisted cluster reference NULL: no item→cluster
assignment is persisted for item 10 although its label 0 is non-noise. -/
theorem c1_counterexample :
    ((10, (0 : Int)) ∈ (([10, 11, 12, 13, 14] : List Nat).zip
        ([0, 0, 0, 0, 0] : List Int))) ∧
    ((0 : Int) ≠ -1) ∧
    (runClusterEngine "acme" "complaints" 50 [10, 11, 12, 13, 14] [0, 0, 0, 0, 0] 1
        exampleItemsDb).clusters ≠ [] ∧
    refLookup (runClusterEngine "acme" "complaints" 50 [10, 11, 12, 13, 14]
        [0, 0, 0, 0, 0] 1 exampleItemsDb) 10 = none := by
  refine ⟨by decide, by decide, by decide, by decide⟩

/-- **C1** (corrected) — amended claim.  Every non-noise cluster label
produced by the clustering step maps to exactly one entry of the persisted
`label_to_db_id` mapping, whose cluster row is the unique created row with
that id and has `size` equal to the number of items bearing that label at
write time; however the engine persists no item→cluster assignments: the
items' stored cluster references are left exactly as they were. -/
theorem c1_unique_row_exact_size
    (company et ct : String) (nc : Int) (items : List Nat) (labels : List Int)
    (nextId : Int) (l : Int) (hl : l ∈ labels) (hnn : l ≠ -1)
    (hlen : items.length = labels.length) :
    (∃ did,
      (l, did) ∈ (saveClustersToDb company items labels et nc ct nextId).2 ∧
      (∀ p ∈ (saveClustersToDb company items labels et nc ct nextId).2,
          p.1 = l → p = (l, did)) ∧
      (∃ r ∈ (saveClustersToDb company items labels et nc ct nextId).1,
          r.id = did ∧ r.size = labels.count l) ∧
      (∀ r ∈ (saveClustersToDb company items labels et nc ct nextId).1,
          r.id = did → r.size = labels.count l)) ∧
    (∀ (db : DbState) (dims : Int),
      (runClusterEngine company ct dims items labels nextId db).itemClusterRef
        = db.itemClusterRef) := by
  constructor
  · have hkey : l ∈ (sortedClusterKeys labels).filter (fun x => x != -1) := by
      rw [List.mem_filter]
      exact ⟨mem_sortedClusterKeys hl, by simpa using hnn⟩
    have hknd : ((sortedClusterKeys labels).filter (fun x => x != -1)).Nodup :=
      (sortedClusterKeys_nodup labels).filter _
    obtain ⟨did, hmem, hu1, hu2⟩ := assignIds_spec hknd nextId hkey
    refine ⟨did, hmem, hu1, ?_, ?_⟩
    · refine ⟨_, List.mem_map_of_mem _ hmem, rfl, ?_⟩
      exact labelMembers_length items labels l hlen
    · intro r hr hrid
      simp only [saveClustersToDb, List.mem_map] at hr
      obtain ⟨p, hp, rfl⟩ := hr
      have hpd : p = (l, did) := hu2 p hp hrid
      rw [hpd]
      exact labelMembers_length items labels l hlen
  · intro db dims
    exact itemClusterRef_runClusterEngine company ct dims items labels nextId db

/-- Witness for the amended C1: two items, one labeled 0 and one noise; label
0 maps to the single created row of size 1, and the run leaves any database's
item references untouched. -/
theorem c1_witness :
    ((0 : Int) ∈ ([0, -1] : List Int)) ∧ ((0 : Int) ≠ -1) ∧
    (([10, 11] : List Nat).length = ([0, -1] : List Int).length) ∧
    ((∃ did,
      ((0 : Int), did) ∈ (saveClustersToDb "acme" [10, 11] [0, -1] "reduced" 50 "complaints" 5).2 ∧
      (∀ p ∈ (saveClustersToDb "acme" [10, 11] [0, -1] "reduced" 50 "complaints" 5).2,
          p.1 = (0 : Int) → p = ((0 : Int), did)) ∧
      (∃ r ∈ (saveClustersToDb "acme" [10, 11] [0, -1] "reduced" 50 "complaints" 5).1,
          r.id = did ∧ r.size = ([0, -1] : List Int).count (0 : Int)) ∧
      (∀ r ∈ (saveClustersToDb "acme" [10, 11] [0, -1] "reduced" 50 "complaints" 5).1,
          r.id = did → r.size = ([0, -1] : List Int).count (0 : Int))) ∧
    (∀ (db : DbState) (dims : Int),
      (runClusterEngine "acme" "complaints" dims [10, 11] [0, -1] 5 db).itemClusterRef
        = db.itemClusterRef)) :=
  ⟨by decide, by decide, by decide,
   c1_unique_row_exact_size "acme" "reduced" "complaints" 50 [10, 11] [0, -1] 5 0
     (by decide) (by decide) (by decide)⟩

/-- **C2** (corrected) — counterexample.  The claim asserts the engine
"deletes all item→cluster assignments … scoped exactly to the tuple being
recomputed".  Starting from a database with one in-scope cluster (id 1), a
`ClusterGroupAssignment` referencing it, and an item whose stored cluster
reference points at it, an engine run for that exact scope deletes the
group-assignment row and the cluster row, but the item's cluster reference
still points to the now-deleted cluster id 1: no item→cluster assignment is
deleted. -/
theorem c2_counterexample :
    clusterScopePred "acme" (engineEmbeddingType 50) "complaints" 50 exampleScopeCluster
        = true ∧
    (runClusterEngine "acme" "complaints" 50 [] [] 2 exampleScopedDb).clusters = [] ∧
    (runClusterEngine "acme" "complaints" 50 [] [] 2 exampleScopedDb).groupAssignments
        = [] ∧
    refLookup (runClusterEngine "acme" "complaints" 50 [] [] 2 exampleScopedDb) 0
        = some 1 :=
  ⟨by decide, by decide, by decide, by decide⟩

/-- **C2** (corrected) — amended claim.  Before writing new clusters the
engine deletes the Cluster rows scoped exactly to the (company, cluster-type,
embedding-type, dimensionality) tuple, first cascade-deleting the
`ClusterGroupAssignment` rows referencing the doomed ids; it deletes no
item→cluster assignments (items' stored cluster references are untouched).
Consequently, two successive runs for the same scope leave exactly the second
run's rows in the scope, with no duplicate cluster rows and no
`ClusterGroupAssignment` referencing a missing cluster (assuming the initial
database satisfied referential integrity and ids are fresh as SQLite
autoincrement guarantees). -/
theorem c2_idempotent_replacement
    (company ct : String) (dims : Int)
    (items1 : List Nat) (labels1 : List Int) (items2 : List Nat) (labels2 : List Int)
    (nextId1 nextId2 : Int) (db : DbState)
    (hnd : (db.clusters.map ClusterRow.id).Nodup)
    (hfresh1 : ∀ r ∈ db.clusters, r.id < nextId1)
    (hfresh2 : nextId1 + ((saveClustersToDb company items1 labels1
        (engineEmbeddingType dims) dims ct nextId1).1.length : Int) ≤ nextId2)
    (hint : ∀ ga ∈ db.groupAssignments, ∃ r ∈ db.clusters, r.id = ga.cluster_id) :
    ((runClusterEngine company ct dims items2 labels2 nextId2
        (runClusterEngine company ct dims items1 labels1 nextId1 db)).clusters.filter
          (clusterScopePred company (engineEmbeddingType dims) ct dims))
      = (saveClustersToDb company items2 labels2 (engineEmbeddingType dims) dims ct
          nextId2).1 ∧
    (((runClusterEngine company ct dims items2 labels2 nextId2
        (runClusterEngine company ct dims items1 labels1 nextId1 db)).clusters.map
          ClusterRow.id).Nodup) ∧
    (∀ ga ∈ (runClusterEngine company ct dims items2 labels2 nextId2
        (runClusterEngine company ct dims items1 labels1 nextId1 db)).groupAssignments,
      ∃ r ∈ (runClusterEngine company ct dims items2 labels2 nextId2
          (runClusterEngine company ct dims items1 labels1 nextId1 db)).clusters,
        r.id = ga.cluster_id) ∧
    ((runClusterEngine company ct dims items2 labels2 nextId2
        (runClusterEngine company ct dims items1 labels1 nextId1 db)).itemClusterRef
      = db.itemClusterRef) := by
  have hnd1 : ((runClusterEngine company ct dims items1 labels1 nextId1 db).clusters.map
      ClusterRow.id).Nodup :=
    nodup_runClusterEngine company ct dims items1 labels1 nextId1 db hnd hfresh1
  have hfresh1b : ∀ r ∈ (runClusterEngine company ct dims items1 labels1 nextId1
      db).clusters, r.id < nextId2 :=
    id_lt_of_mem_runClusterEngine hfresh1 nextId2 hfresh2
  refine ⟨?_, ?_, ?_, ?_⟩
  · rw [runClusterEngine_clusters company ct dims items2 labels2 nextId2 _ hnd1,
      List.filter_append]
    have h1 : ((runClusterEngine company ct dims items1 labels1 nextId1
          db).clusters.filter
        (fun c => !(clusterScopePred company (engineEmbeddingType dims) ct dims
            c))).filter
          (clusterScopePred company (engineEmbeddingType dims) ct dims) = [] := by
      rw [List.filter_filter]
      rw [List.filter_eq_nil_iff]
      intro a ha
      cases hp : clusterScopePred company (engineEmbeddingType dims) ct dims a <;>
        simp [hp]
    have h2 : (saveClustersToDb company items2 labels2 (engineEmbeddingType dims) dims
          ct nextId2).1.filter
        (clusterScopePred company (engineEmbeddingType dims) ct dims)
        = (saveClustersToDb company items2 labels2 (engineEmbeddingType dims) dims ct
            nextId2).1 :=
      List.filter_eq_self.mpr (fun r hr => scopePred_of_mem_save hr)
    rw [h1, h2, List.nil_append]
  · exact nodup_runClusterEngine company ct dims items2 labels2 nextId2 _ hnd1 hfresh1b
  · exact integrity_runClusterEngine (integrity_runClusterEngine hint)
  · rw [itemClusterRef_runClusterEngine, itemClusterRef_runClusterEngine]

/-- Witness for the amended C2: two successive runs of the engine for the
(acme, complaints, reduced, 50) scope over one-item batches, starting from a
database with one in-scope cluster, a group assignment referencing it and an
item reference pointing at it. -/
theorem c2_witness :
    ((exampleScopedDb.clusters.map ClusterRow.id).Nodup) ∧
    (∀ r ∈ exampleScopedDb.clusters, r.id < 2) ∧
    ((2 : Int) + ((saveClustersToDb "acme" [20] [0] (engineEmbeddingType 50) 50
        "complaints" 2).1.length : Int) ≤ 3) ∧
    (∀ ga ∈ exampleScopedDb.groupAssignments,
      ∃ r ∈ exampleScopedDb.clusters, r.id = ga.cluster_id) ∧
    (((runClusterEngine "acme" "complaints" 50 [21] [0] 3
        (runClusterEngine "acme" "complaints" 50 [20] [0] 2
          exampleScopedDb)).clusters.filter
          (clusterScopePred "acme" (engineEmbeddingType 50) "complaints" 50))
      = (saveClustersToDb "acme" [21] [0] (engineEmbeddingType 50) 50 "complaints"
          3).1 ∧
    (((runClusterEngine "acme" "complaints" 50 [21] [0] 3
        (runClusterEngine "acme" "complaints" 50 [20] [0] 2
          exampleScopedDb)).clusters.map ClusterRow.id).Nodup) ∧
    (∀ ga ∈ (runClusterEngine "acme" "complaints" 50 [21] [0] 3
        (runClusterEngine "acme" "complaints" 50 [20] [0] 2
          exampleScopedDb)).groupAssignments,
      ∃ r ∈ (runClusterEngine "acme" "complaints" 50 [21] [0] 3
          (runClusterEngine "acme" "complaints" 50 [20] [0] 2
            exampleScopedDb)).clusters,
        r.id = ga.cluster_id) ∧
    ((runClusterEngine "acme" "complaints" 50 [21] [0] 3
        (runClusterEngine "acme" "complaints" 50 [20] [0] 2
          exampleScopedDb)).itemClusterRef = exampleScopedDb.itemClusterRef)) :=
  ⟨by decide, by decide, by decide, by decide,
   c2_idempotent_replacement "acme" "complaints" 50 [20] [0] [21] [0] 2 3
     exampleScopedDb (by decide) (by decide) (by decide) (by decide)⟩

/-- **C4** (confirmed).  After the Semantic Grouper's validation/repair step,
every in-scope cluster id is contained in exactly one group of the repaired
grouping; an id that appeared in the LLM output remains exactly at the first
group (in LLM output order) that claimed it — the repaired grouping's first
match is at the same position as the original's, and by the uniqueness part
it appears nowhere else — and an id absent from every proposed group receives
a synthesized singleton group carrying that cluster's own label and summary
as the group's name and description. -/
theorem c4_partition_repair
    (clusters : List ClusterRow) (groups : List LlmGroup)
    (_hne : clusters ≠ []) (hnd : (clusters.map ClusterRow.id).Nodup) :
    ∀ i ∈ clusters.map ClusterRow.id,
      ((repairGrouping clusters groups).countP
          (fun g => g.cluster_ids.contains i) = 1) ∧
      (i ∈ llmFlatIds groups →
        (repairGrouping clusters groups).findIdx? (fun g => g.cluster_ids.contains i)
          = groups.findIdx? (fun g => g.cluster_ids.contains i)) ∧
      (i ∉ llmFlatIds groups →
        ∀ c ∈ clusters, c.id = i →
          ∀ lab sumr : String, c.cluster_label = some lab → lab ≠ "" →
            c.cluster_summary = some sumr → sumr ≠ "" →
            ∃ g ∈ repairGrouping clusters groups,
              g.cluster_ids = [i] ∧ g.group_name = lab ∧ g.group_description = sumr) := by
  intro i hi
  have hmnd : (missingScopeIds clusters groups).Nodup := hnd.filter _
  refine ⟨?_, ?_, ?_⟩
  · rw [repairGrouping, List.countP_append, countP_dedupedGroups,
      countP_singleton_groups clusters _ i hmnd]
    by_cases hf : i ∈ llmFlatIds groups
    · rw [if_pos hf, if_neg (fun hm => (mem_missingScopeIds.mp hm).2 hf)]
    · rw [if_neg hf, if_pos (mem_missingScopeIds.mpr ⟨hi, hf⟩)]
  · intro hflat
    rw [repairGrouping, List.findIdx?_append]
    obtain ⟨g, hg, hgi⟩ := mem_llmFlatIds.mp (mem_llmFlatIds_dedupedGroups.mpr hflat)
    cases hfind : (dedupedGroups groups).findIdx?
        (fun g => g.cluster_ids.contains i) with
    | none =>
      exfalso
      have h0 := List.findIdx?_eq_none_iff.mp hfind g hg
      rw [contains_iff.mpr hgi] at h0
      cases h0
    | some j =>
      have h2 : groups.findIdx? (fun g => g.cluster_ids.contains i) = some j :=
        (findIdx?_dedupedGroups groups i).symm.trans hfind
      rw [h2]
      rfl
  · intro hnflat c hc hcid lab sumr hl hlne hs hsne
    refine ⟨singletonGroupFor clusters i,
      List.mem_append_right _
        (List.mem_map_of_mem _ (mem_missingScopeIds.mpr ⟨hi, hnflat⟩)),
      singletonGroupFor_ids clusters i, ?_, ?_⟩
    · unfold singletonGroupFor
      rw [find?_clusters_eq_some hnd hc hcid]
      simp [pyStrOr, hl, hlne]
    · unfold singletonGroupFor
      rw [find?_clusters_eq_some hnd hc hcid]
      simp [pyStrOr, hs, hsne]

/-- Witness for C4 at the spec's own repair scenario: cluster id 7 is claimed
by both Group A and Group B, id 9 by neither; the repair keeps 7 only in
Group A (first occurrence), strips it from Group B, and synthesizes a
singleton group for 9 named by cluster 9's own label and summary. -/
theorem c4_witness :
    (exampleC4Clusters ≠ []) ∧
    ((exampleC4Clusters.map ClusterRow.id).Nodup) ∧
    (∀ i ∈ exampleC4Clusters.map ClusterRow.id,
      ((repairGrouping exampleC4Clusters exampleC4Groups).countP
          (fun g => g.cluster_ids.contains i) = 1) ∧
      (i ∈ llmFlatIds exampleC4Groups →
        (repairGrouping exampleC4Clusters exampleC4Groups).findIdx?
            (fun g => g.cluster_ids.contains i)
          = exampleC4Groups.findIdx? (fun g => g.cluster_ids.contains i)) ∧
      (i ∉ llmFlatIds exampleC4Groups →
        ∀ c ∈ exampleC4Clusters, c.id = i →
          ∀ lab sumr : String, c.cluster_label = some lab → lab ≠ "" →
            c.cluster_summary = some sumr → sumr ≠ "" →
            ∃ g ∈ repairGrouping exampleC4Clusters exampleC4Groups,
              g.cluster_ids = [i] ∧ g.group_name = lab ∧
                g.group_description = sumr)) ∧
    (repairGrouping exampleC4Clusters exampleC4Groups
      = [{ group_name := "Group A", group_description := "first",
           cluster_ids := [7, 8] },
         { group_name := "Group B", group_description := "second",
           cluster_ids := [] },
         { group_name := "Label Nine", group_description := "Summary nine",
           cluster_ids := [9] }]) :=
  ⟨by decide, by decide,
   c4_partition_repair exampleC4Clusters exampleC4Groups (by decide) (by decide),
   by decide⟩

end Dora
